import Mathlib

/-!
Verification of the reconciliation-engine core of the `iambic` repository.

The Lean definitions below are shallow embeddings of the Python functions in
`src/noq_form/core/utils.py`, `src/iambic/aws/iam/policy/utils.py` and
`src/iambic/okta/user/utils.py`.  Pure functions become Lean functions;
stateful provider interaction is made explicit by returning a trace of the
provider calls a function issues; Python exceptions become `Except`.

Modelling conventions, shared by every definition:
* Python strings are Lean `String`s; `str.lower()` is modelled by an ASCII
  `py_lower` (every account id / status string the claims touch is ASCII).
* `re.match(pattern, s)` is modelled for the pattern language the code
  actually passes to it: a plain literal pattern matches iff it is a prefix
  of `s` (which is exactly what `re.match` does for regex-metacharacter-free
  patterns), and the bare pattern `"*"` is an invalid regular expression on
  which `re.match` raises `re.error` ("nothing to repeat"); this is modelled
  by `Except.error ()`.  Theorems that quantify over pattern strings carry
  hypotheses (digits-only account ids) keeping them inside this fragment.
* Python's stable `sorted(..., key=...)` is modelled by
  `List.insertionSort`, which is also stable, so the two agree on every
  input for a total preorder key.
-/

/-! ## Common data model (`iambic.core.models`) -/

/-- The `ProposedChangeType` enum. -/
inductive ChangeType where
  | create
  | update
  | delete
  | attach
  | detach
deriving DecidableEq, Repr

/-- The `ProposedChange` record.  Python is dynamically typed, so the payload
slots (`current_value`, `new_value`, `change_summary`) are a type parameter,
instantiated per call site with the payload type that call site builds.
Fields the call site does not pass default to `None`. -/
structure ProposedChange (α : Type) where
  change_type : ChangeType
  resource_id : Option String := none
  resource_type : Option String := none
  «attribute» : Option String := none
  current_value : Option α := none
  new_value : Option α := none
  change_summary : Option α := none
deriving DecidableEq, Repr

/-! ## String helpers (Python semantics) -/

/-- ASCII `str.lower()` for one character. -/
def py_lower_char (c : Char) : Char :=
  if 'A' ≤ c ∧ c ≤ 'Z' then Char.ofNat (c.toNat + 32) else c

/-- ASCII model of Python `str.lower()`. -/
def py_lower (s : String) : String :=
  String.mk (s.data.map py_lower_char)

/-- Python `a in b` on strings: substring containment. -/
def py_in_str (a b : String) : Bool :=
  decide (a.data <:+: b.data)

/-- Model of `re.match(pattern, s)` for the patterns this code base feeds it
(see the header comment): a literal pattern matches iff it is a prefix of
`s`; the bare `"*"` is an invalid regex and raises `re.error`. -/
def re_match (pattern s : String) : Except Unit Bool :=
  if pattern = "*" then .error ()
  else .ok (pattern.data.isPrefixOf s.data)

/-! ## `noq_form/core/utils.py`: account scope resolution -/

/-- The `AccountConfig` record: the account being reconciled against. -/
structure AccountConfig where
  account_id : String
  account_name : Option String := none
  org_id : Option String := none
deriving DecidableEq, Repr

/-- Python truthiness of an optional string: `None` and `""` are falsy. -/
def truthy_str : Option String → Option String
  | none => none
  | some s => if s = "" then none else some s

/-- The candidate account-id list built identically in `get_closest_value`
and `evaluate_on_account`:
`[account_id] + ([account_name.lower()] if account_name else [])`. -/
def candidate_ids (account_config : AccountConfig) : List String :=
  match truthy_str account_config.account_name with
  | some name => [account_config.account_id, py_lower name]
  | none => [account_config.account_id]

/-- One element of `matching_values`: an object carrying an
`included_accounts` attribute plus whatever payload it is (the Python code
returns the object itself). -/
structure MatchingVal (α : Type) where
  included_accounts : List String
  payload : α
deriving DecidableEq, Repr

/-- The `account_value_hit` accumulator dict of `get_closest_value`
(`dict(returns=None, specificty=0)`; the key's spelling follows the source). -/
structure AccountValueHit (α : Type) where
  returns : Option (MatchingVal α) := none
  specificty : Nat := 0
deriving DecidableEq, Repr

/-- Inner loop of `get_closest_value`: `for account_id in account_ids` for a
fixed pattern `resource_account`.  The wildcard branch keeps iterating; the
`elif` branch calls `re.match` (which can raise) and `break`s on success. -/
def gcv_scan_ids {α : Type} (matching_value : MatchingVal α)
    (resource_account : String) (account_ids : List String)
    (hit : AccountValueHit α) : Except Unit (AccountValueHit α) :=
  match account_ids with
  | [] => .ok hit
  | account_id :: rest =>
    if resource_account = "*" ∧ hit.specificty = 0 then
      gcv_scan_ids matching_value resource_account rest
        ⟨some matching_value, 1⟩
    else
      match re_match (py_lower resource_account) account_id with
      | .error e => .error e
      | .ok m =>
        if m ∧ resource_account.length > hit.specificty then
          .ok ⟨some matching_value, resource_account.length⟩
        else
          gcv_scan_ids matching_value resource_account rest hit

/-- Middle loop of `get_closest_value`:
`for resource_account in sorted(matching_value.included_accounts, key=len)`. -/
def gcv_scan_patterns {α : Type} (matching_value : MatchingVal α)
    (patterns : List String) (account_ids : List String)
    (hit : AccountValueHit α) : Except Unit (AccountValueHit α) :=
  match patterns with
  | [] => .ok hit
  | p :: ps => do
    let hit' ← gcv_scan_ids matching_value p account_ids hit
    gcv_scan_patterns matching_value ps account_ids hit'

/-- Outer loop of `get_closest_value`: `for matching_value in matching_values`. -/
def gcv_scan_values {α : Type} (matching_values : List (MatchingVal α))
    (account_ids : List String) (hit : AccountValueHit α) :
    Except Unit (AccountValueHit α) :=
  match matching_values with
  | [] => .ok hit
  | mv :: mvs => do
    let sorted_accounts :=
      List.insertionSort (fun a b : String => a.length ≤ b.length)
        mv.included_accounts
    let hit' ← gcv_scan_patterns mv sorted_accounts account_ids hit
    gcv_scan_values mvs account_ids hit'

/-- Embedding of `get_closest_value(matching_values, account_config)`.  A raised
`re.error` surfaces as `Except.error ()`; the normal return is
`account_value_hit["returns"]` (possibly `None`). -/
def get_closest_value {α : Type} (matching_values : List (MatchingVal α))
    (account_config : AccountConfig) :
    Except Unit (Option (MatchingVal α)) :=
  if matching_values.length = 1 then .ok matching_values.head?
  else do
    let account_ids := candidate_ids account_config
    let hit ← gcv_scan_values matching_values account_ids ⟨none, 0⟩
    .ok hit.returns

/-- A resource whose type subclasses `AccessModel`, as consumed by
`evaluate_on_account` / `apply_to_account`.  `deleted = some b` models a
plain-boolean `deleted` attribute; `deleted = none` models the attribute
being absent.  (The list-of-scoped-`Deleted`-rules variant lives in
`noq_form/core/models.py`, which is not part of the shown sources, and is
not modelled; no claim depends on it.) -/
structure AccessResource where
  included_accounts : List String := []
  excluded_accounts : List String := []
  included_orgs : List String := []
  excluded_orgs : List String := []
  deleted : Option Bool := none
deriving DecidableEq, Repr

/-- Lazy `any(re.match(p, s) for p in pats)` (patterns used as-is). -/
def any_re_match (pats : List String) (s : String) : Except Unit Bool :=
  match pats with
  | [] => .ok false
  | p :: ps => do
    let m ← re_match p s
    if m then .ok true else any_re_match ps s

/-- Lazy `any(re.match(p.lower(), s) for p in pats)`. -/
def any_re_match_lower (pats : List String) (s : String) : Except Unit Bool :=
  match pats with
  | [] => .ok false
  | p :: ps => do
    let m ← re_match (py_lower p) s
    if m then .ok true else any_re_match_lower ps s

/-- First account loop of `evaluate_on_account`: return `False` as soon as
some candidate id is matched by an excluded-accounts pattern. -/
def eoa_excluded_loop (excluded : List String) (ids : List String) :
    Except Unit Bool :=
  match ids with
  | [] => .ok false
  | id :: rest => do
    let m ← any_re_match_lower excluded id
    if m then .ok true else eoa_excluded_loop excluded rest

/-- Second account loop of `evaluate_on_account`: return `True` if
`"*" in included_accounts` (checked before any regex call) or some pattern
matches the candidate id. -/
def eoa_included_loop (included : List String) (ids : List String) :
    Except Unit Bool :=
  match ids with
  | [] => .ok false
  | id :: rest =>
    if included.contains "*" then .ok true
    else do
      let m ← any_re_match_lower included id
      if m then .ok true else eoa_included_loop included rest

/-- Embedding of `evaluate_on_account(resource, account_config)` for a resource that is an
`AccessModel` subclass (non-`AccessModel` resources return `True` before any
of this logic runs and are not modelled). -/
def evaluate_on_account (resource : AccessResource)
    (account_config : AccountConfig) : Except Unit Bool := do
  let org_ok ←
    match truthy_str account_config.org_id with
    | some org =>
      if resource.excluded_orgs.contains org then pure false
      else any_re_match resource.included_orgs org
    | none => pure true
  if !org_ok then return false
  let account_ids := candidate_ids account_config
  let excluded_hit ← eoa_excluded_loop resource.excluded_accounts account_ids
  if excluded_hit then return false
  let included_hit ← eoa_included_loop resource.included_accounts account_ids
  if included_hit then return true
  return false

/-- Embedding of `apply_to_account(resource, account_config)`, plain-boolean `deleted`
case: the source reads `if isinstance(resource.deleted, bool): if not
resource.deleted: return False` and otherwise falls through to
`evaluate_on_account`. -/
def apply_to_account (resource : AccessResource)
    (account_config : AccountConfig) : Except Unit Bool :=
  match resource.deleted with
  | some b => if !b then .ok false else evaluate_on_account resource account_config
  | none => evaluate_on_account resource account_config

/-! ## `noq_form/core/utils.py`: `remove_expired_resources` -/

/-- The per-node attributes `remove_expired_resources` inspects.
`has_expires_at` models `hasattr(resource, "expires_at")` (a model may not
declare the field at all); `expires_at = some t` models a set timestamp
(`datetime` values are always truthy), `none` models `None`; `deleted = some
b` models a plain-boolean `deleted` attribute, `none` its absence (or a
non-boolean value, for which `getattr(resource, "deleted", None) is False`
is equally false). -/
structure RInfo where
  resource_type : String := ""
  resource_name : String := ""
  has_expires_at : Bool := true
  expires_at : Option Nat := none
  deleted : Option Bool := none
deriving DecidableEq, Repr

mutual
/-- A value held somewhere in a resource tree: either a pydantic `BaseModel`
node (with its scanned attributes and its `__fields__` values) or any other
Python value, which the first guard of `remove_expired_resources` returns
unchanged. -/
inductive RNode where
  | scalar : RNode
  | res : RInfo → List RField → RNode

/-- One field value of a node: `isinstance(field_val, list)` distinguishes a
list field (swept element-wise) from a single value (swept directly). -/
inductive RField where
  | single : RNode → RField
  | many : List RNode → RField
end

/-- The mutation `resource.deleted = False` performed by the source on an
expired node (the log line reads "Expired resource found, marking for
deletion"). -/
def mark_expired (info : RInfo) : RInfo :=
  { info with deleted := some false }

mutual
/-- Embedding of `remove_expired_resources(resource, ...)` on one value, with the current
time `datetime.utcnow()` passed explicitly as `now`.  The in-place mutation
of the Python version is rendered as returning the updated tree; the
`template_resource_type` / `template_resource_name` arguments only feed log
output and are omitted. -/
def remove_expired_resources (now : Nat) : RNode → RNode
  | .scalar => .scalar
  | .res info fields =>
    if info.deleted = some false then .res info fields
    else if !info.has_expires_at then .res info fields
    else
      match info.expires_at with
      | some e =>
        if e < now then .res (mark_expired info) fields
        else .res info (rer_fields now fields)
      | none => .res info (rer_fields now fields)

/-- Sweep of `resource.__fields__` values. -/
def rer_fields (now : Nat) : List RField → List RField
  | [] => []
  | f :: fs => rer_field now f :: rer_fields now fs

/-- Sweep of one field value. -/
def rer_field (now : Nat) : RField → RField
  | .single v => .single (remove_expired_resources now v)
  | .many vs => .many (rer_list now vs)

/-- Element-wise sweep of a list-valued field (`asyncio.gather` over the
elements; the elements are independent, so the sequential map has the same
result). -/
def rer_list (now : Nat) : List RNode → List RNode
  | [] => []
  | v :: vs => remove_expired_resources now v :: rer_list now vs
end

/-! ## `iambic/aws/iam/policy/utils.py` -/

/-- JSON-like policy-document values (for `PolicyDocument` contents and the
DeepDiff model). -/
inductive JsonVal where
  | null
  | bool (b : Bool)
  | num (n : Int)
  | str (s : String)
  | arr (elems : List JsonVal)
  | obj (fields : List (String × JsonVal))

/-- Byte-wise total order on strings used only to canonicalise lists (any
fixed total order works). -/
def str_le_b : List Char → List Char → Bool
  | [], _ => true
  | _ :: _, [] => false
  | a :: as, b :: bs =>
    if a.toNat < b.toNat then true
    else if b.toNat < a.toNat then false
    else str_le_b as bs

/-- Comma-joined concatenation. -/
def join_strings : List String → String
  | [] => ""
  | s :: rest => s ++ "," ++ join_strings rest

/-- Sort a list of strings under `str_le_b`. -/
def sort_strings (l : List String) : List String :=
  List.insertionSort (fun a b : String => str_le_b a.data b.data = true) l

mutual
/-- Canonical rendering of a `JsonVal` that is invariant under reordering of
array elements and object fields.  This models the behaviour of the external
`DeepDiff(..., ignore_order=True, report_repetition=True)` call relied on by
`update_managed_policy`: the diff is empty iff the two documents are equal
up to ordering (repetitions preserved, since sorting keeps multiplicity). -/
def canon : JsonVal → String
  | .null => "null"
  | .bool b => if b then "true" else "false"
  | .num n => "n:" ++ toString n
  | .str s => "s:" ++ s
  | .arr es => "a(" ++ join_strings (sort_strings (canon_list es)) ++ ")"
  | .obj fs => "o(" ++ join_strings (sort_strings (canon_fields fs)) ++ ")"

/-- Canonical renderings of a list of values. -/
def canon_list : List JsonVal → List String
  | [] => []
  | v :: vs => canon v :: canon_list vs

/-- Canonical renderings of object fields. -/
def canon_fields : List (String × JsonVal) → List String
  | [] => []
  | (k, v) :: fs => (k ++ ":" ++ canon v) :: canon_fields fs
end

/-- Model of the emptiness of
`DeepDiff(existing, template, ignore_order=True, report_repetition=True)`
(external library; only its truthiness is consumed by the code under
verification). -/
def deep_diff_is_empty (a b : JsonVal) : Bool :=
  canon a = canon b

/-- One entry of the `list_policy_versions` response. -/
structure PolicyVersion where
  version_id : String
  create_date : Nat
  is_default_version : Bool
deriving DecidableEq, Repr

/-- Embedding of `get_oldest_policy_version_id(policy_versions)`: sort by `CreateDate`
(Python's stable sort), return the head's id unless the head is the default
version, in which case return the second entry's id if there is one (the
Python function otherwise falls off the end, returning `None`; it is only
ever called with five versions). -/
def get_oldest_policy_version_id (policy_versions : List PolicyVersion) :
    Option String :=
  match List.insertionSort
      (fun a b : PolicyVersion => a.create_date ≤ b.create_date)
      policy_versions with
  | [] => none
  | v0 :: rest =>
    if !v0.is_default_version then some v0.version_id
    else
      match rest with
      | v1 :: _ => some v1.version_id
      | [] => none

/-- Mutating IAM calls issued by `update_managed_policy`, in issue order. -/
inductive MpWrite where
  | delete_policy_version (version_id : Option String)
  | create_policy_version (policy_document : JsonVal)

/-- Embedding of `update_managed_policy(...)`.  `policy_versions` stands for the response
the function fetches through `list_managed_policy_versions` (a read call);
the returned list is the mutating-call trace in issue order.  The
`change_summary` of the `UPDATE` record is the serialised DeepDiff payload,
an opaque output of the external library, left as `none` here (no claim
inspects it). -/
def update_managed_policy (policy_versions : List PolicyVersion)
    (template_policy_document existing_policy_document : JsonVal)
    (iambic_import_only : Bool) :
    List (ProposedChange JsonVal) × List MpWrite :=
  if deep_diff_is_empty existing_policy_document template_policy_document then
    ([], [])
  else
    let pc : ProposedChange JsonVal :=
      { change_type := .update
        «attribute» := some "policy_document"
        current_value := some existing_policy_document
        new_value := some template_policy_document }
    if iambic_import_only then ([pc], [])
    else if policy_versions.length = 5 then
      ([pc],
        [.delete_policy_version (get_oldest_policy_version_id policy_versions),
         .create_policy_version template_policy_document])
    else ([pc], [.create_policy_version template_policy_document])

/-- One AWS tag (`{"Key": ..., "Value": ...}`). -/
structure AwsTag where
  key : String
  value : String
deriving DecidableEq, Repr

/-- Embedding of `{tag["Key"]: tag["Value"] for tag in tags}.get(k)`: a Python dict
comprehension keeps the last value for a duplicated key. -/
def tag_map_get (tags : List AwsTag) (k : String) : Option String :=
  (tags.reverse.find? (fun t => t.key = k)).map (fun t => t.value)

/-- Python truthiness of `dict.get(...)` over string values: `None` and `""`
are falsy. -/
def py_falsy_opt_str : Option String → Bool
  | none => true
  | some s => s = ""

/-- The `tags_to_apply` list: template tags whose value differs from the existing
value under the same key (`tag["Value"] != existing_tag_map.get(tag["Key"])`;
a missing key gives `None`, which differs from every string). -/
def mp_tags_to_apply (template_tags existing_tags : List AwsTag) :
    List AwsTag :=
  template_tags.filter (fun t => !(some t.value = tag_map_get existing_tags t.key : Bool))

/-- The `tags_to_remove` list: keys of existing tags whose key maps to a falsy value
in the template tag map (missing, or the empty string). -/
def mp_tags_to_remove (template_tags existing_tags : List AwsTag) :
    List String :=
  (existing_tags.filter (fun t => py_falsy_opt_str (tag_map_get template_tags t.key))).map
    (fun t => t.key)

/-- Payload values placed into tag `ProposedChange`s. -/
inductive TagPcVal where
  | tag_keys (keys : List String)
  | tag (t : AwsTag)
deriving DecidableEq, Repr

/-- Mutating IAM calls issued by `apply_managed_policy_tags`. -/
inductive TagWrite where
  | untag_policy (tag_keys : List String)
  | tag_policy (tags : List AwsTag)
deriving DecidableEq, Repr

/-- Embedding of `apply_managed_policy_tags(...)`: returns the `ProposedChange` list and
the mutating-call trace (the `tasks` list, gathered at the end).  Note the
asymmetric gating in the source: `untag_policy` is guarded by
`if not iambic_import_only`, `tag_policy` by `if context.execute`. -/
def apply_managed_policy_tags (template_tags existing_tags : List AwsTag)
    (iambic_import_only : Bool) (execute : Bool) :
    List (ProposedChange TagPcVal) × List TagWrite :=
  let tags_to_apply := mp_tags_to_apply template_tags existing_tags
  let tags_to_remove := mp_tags_to_remove template_tags existing_tags
  let response : List (ProposedChange TagPcVal) :=
    (if tags_to_remove.isEmpty then []
     else [{ change_type := .detach
             «attribute» := some "tags"
             change_summary := some (.tag_keys tags_to_remove) }])
    ++ tags_to_apply.map (fun t =>
        { change_type := .attach
          «attribute» := some "tags"
          new_value := some (.tag t) })
  let tasks : List TagWrite :=
    (if !tags_to_remove.isEmpty ∧ !iambic_import_only then
      [.untag_policy tags_to_remove]
     else [])
    ++ (if !tags_to_apply.isEmpty ∧ execute then
      [.tag_policy tags_to_apply]
     else [])
  (response, tasks)

/-! ## `iambic/okta/user/utils.py` -/

/-- The slice of the Okta `User` model the functions below read.  `status`
carries `user.status.value` (a lower-case status string). -/
structure OktaUser where
  user_id : String
  username : String
  status : String
  resource_type : String := "okta:user"
deriving DecidableEq, Repr

/-- An HTTP request handed to the Okta request executor. -/
structure OktaRequest where
  method : String
  endpoint : String
deriving DecidableEq, Repr

/-- The lifecycle dispatch of `update_user_status`, factored out verbatim
from its `if`/`elif` chain: given the current and requested status strings,
either the `(method, endpoint-suffix)` of the single lifecycle request to
issue (the endpoint is `/api/v1/users/{id}` plus the suffix) or the
invalid-transition error message the function raises.  `current_status in
"provisioned"` in the source is Python substring containment, modelled by
`py_in_str`. -/
def select_status_path (current_status new_status : String) :
    Except String (String × String) :=
  if current_status = "suspended" ∧ new_status = "active" then
    .ok ("POST", "/lifecycle/unsuspend")
  else if current_status = "active" ∧ new_status = "suspended" then
    .ok ("POST", "/lifecycle/suspend")
  else if new_status = "deprovisioned" ∧ ¬current_status = "deprovisioned" then
    .ok ("POST", "/lifecycle/deactivate")
  else if (current_status = "staged" ∨ current_status = "deprovisioned")
      ∧ (new_status = "active" ∨ new_status = "provisioned") then
    .ok ("POST", "/lifecycle/activate")
  else if py_in_str current_status "provisioned" ∧ new_status = "active" then
    .ok ("POST", "/lifecycle/reactivate")
  else if current_status = "locked_out" ∧ new_status = "active" then
    .ok ("POST", "/lifecycle/unlock")
  else if new_status = "recovery" then
    .ok ("POST", "/lifecycle/reset_password")
  else if new_status = "password_expired" then
    .ok ("POST", "/lifecycle/expire_password")
  else if new_status = "deleted" then
    .ok ("DELETE", "")
  else
    .error ("Error updating user status. Invalid transition from "
      ++ current_status ++ " to " ++ new_status)

/-- The `change_summary` of the status `ProposedChange`:
`{"current_status": ..., "proposed_status": ...}`. -/
structure StatusChangeSummary where
  current_status : String
  proposed_status : String
deriving DecidableEq, Repr

/-- Embedding of `update_user_status(user, new_status, ..., context)`.  Returns the
function's outcome (the `ProposedChange` list, or the raised exception
message) together with the trace of lifecycle requests actually handed to
the request executor.  `create_request_error` / `exec_error` model the two
error returns of the Okta client (`create_request` fails before anything is
issued; `execute` fails after the request has been issued). -/
def update_user_status (user : Option OktaUser) (new_status : String)
    (execute : Bool) (create_request_error exec_error : Bool) :
    Except String (List (ProposedChange StatusChangeSummary)) × List OktaRequest :=
  match user with
  | none => (.ok [], [])
  | some u =>
    let current_status := u.status
    if current_status = new_status then (.ok [], [])
    else
      let pc : ProposedChange StatusChangeSummary :=
        { change_type := .update
          resource_id := some u.user_id
          resource_type := some u.resource_type
          «attribute» := some "status"
          change_summary := some ⟨current_status, new_status⟩ }
      if !execute then (.ok [pc], [])
      else
        match select_status_path current_status new_status with
        | .error e => (.error e, [])
        | .ok (method, suffix) =>
          let req : OktaRequest :=
            ⟨method, "/api/v1/users/" ++ u.user_id ++ suffix⟩
          if create_request_error then
            (.error "Error updating user status", [])
          else if exec_error then
            (.error "Error updating user profile: <error>", [req])
          else (.ok [pc], [req])

/-- The nine Okta user lifecycle states of spec §4.5. -/
inductive UserStatus where
  | staged
  | provisioned
  | active
  | recovery
  | password_expired
  | locked_out
  | suspended
  | deprovisioned
  | deleted
deriving DecidableEq, Repr, Fintype

/-- The status string (`user.status.value`) of each lifecycle state. -/
def status_str : UserStatus → String
  | .staged => "staged"
  | .provisioned => "provisioned"
  | .active => "active"
  | .recovery => "recovery"
  | .password_expired => "password_expired"
  | .locked_out => "locked_out"
  | .suspended => "suspended"
  | .deprovisioned => "deprovisioned"
  | .deleted => "deleted"

/-- The operations named by the transition table of spec §4.5. -/
inductive LifecycleOp where
  | unsuspend
  | suspend
  | deactivate
  | activate
  | reactivate
  | unlock
  | reset_password
  | expire_password
  | delete
deriving DecidableEq, Repr, Fintype

/-- Modelled from the spec: the transition table of §4.5 (`(from, to) ↦
operation`, `none` for the pairs the table does not list).  This is the
refinement reference that `update_user_status` is compared against. -/
def spec_transition_table : UserStatus → UserStatus → Option LifecycleOp
  | .suspended, .active => some .unsuspend
  | .active, .suspended => some .suspend
  | .deprovisioned, .deprovisioned => none
  | _, .deprovisioned => some .deactivate
  | .staged, .active => some .activate
  | .staged, .provisioned => some .activate
  | .deprovisioned, .active => some .activate
  | .deprovisioned, .provisioned => some .activate
  | .provisioned, .active => some .reactivate
  | .locked_out, .active => some .unlock
  | _, .recovery => some .reset_password
  | _, .password_expired => some .expire_password
  | _, .deleted => some .delete
  | _, _ => none

/-- The provider request that realises each table operation, for a given
user id (`deactivate`…`expire_password` are lifecycle POSTs; `delete` is a
`DELETE` of the user resource itself). -/
def op_request (user_id : String) : LifecycleOp → OktaRequest
  | .unsuspend => ⟨"POST", "/api/v1/users/" ++ user_id ++ "/lifecycle/unsuspend"⟩
  | .suspend => ⟨"POST", "/api/v1/users/" ++ user_id ++ "/lifecycle/suspend"⟩
  | .deactivate => ⟨"POST", "/api/v1/users/" ++ user_id ++ "/lifecycle/deactivate"⟩
  | .activate => ⟨"POST", "/api/v1/users/" ++ user_id ++ "/lifecycle/activate"⟩
  | .reactivate => ⟨"POST", "/api/v1/users/" ++ user_id ++ "/lifecycle/reactivate"⟩
  | .unlock => ⟨"POST", "/api/v1/users/" ++ user_id ++ "/lifecycle/unlock"⟩
  | .reset_password => ⟨"POST", "/api/v1/users/" ++ user_id ++ "/lifecycle/reset_password"⟩
  | .expire_password => ⟨"POST", "/api/v1/users/" ++ user_id ++ "/lifecycle/expire_password"⟩
  | .delete => ⟨"DELETE", "/api/v1/users/" ++ user_id⟩

/-- The `change_summary` of the DELETE `ProposedChange` of
`maybe_delete_user`: `{"user": username}`. -/
structure DeleteSummary where
  user : String
deriving DecidableEq, Repr

/-- The Okta client call issued by `maybe_delete_user`. -/
inductive OktaCall where
  | deactivate_or_delete_user (user_id : String)
deriving DecidableEq, Repr

/-- Embedding of `maybe_delete_user(delete, user, ...)`.  `first_call_error` /
`second_call_error` model the error slot of the two successive
`client.deactivate_or_delete_user` responses; the trace records the calls
issued before the function returns or raises. -/
def maybe_delete_user (delete : Bool) (user : Option OktaUser)
    (execute : Bool) (first_call_error second_call_error : Bool) :
    Except String (List (ProposedChange DeleteSummary)) × List OktaCall :=
  match user with
  | none => (.ok [], [])
  | some u =>
    if !delete then (.ok [], [])
    else
      let pc : ProposedChange DeleteSummary :=
        { change_type := .delete
          resource_id := some u.user_id
          resource_type := some u.resource_type
          «attribute» := some "user"
          change_summary := some ⟨u.username⟩ }
      if execute then
        if first_call_error then
          (.error "Error deleting user", [.deactivate_or_delete_user u.user_id])
        else if second_call_error then
          (.error "Error deleting user",
            [.deactivate_or_delete_user u.user_id,
             .deactivate_or_delete_user u.user_id])
        else
          (.ok [pc],
            [.deactivate_or_delete_user u.user_id,
             .deactivate_or_delete_user u.user_id])
      else (.ok [pc], [])

/-- The `change_summary` payloads of assignment `ProposedChange`s. -/
inductive AssignmentSummary where
  | assignments_to_remove (ids : List String)
  | assignments_to_add (ids : List String)
deriving DecidableEq, Repr

/-- The `assignments_to_remove` list of `update_user_assignments`. -/
def ua_assignments_to_remove (current_assignments desired_assignments : List String) :
    List String :=
  current_assignments.filter (fun a => !desired_assignments.contains a)

/-- The `assignments_to_add` list of `update_user_assignments`. -/
def ua_assignments_to_add (current_assignments desired_assignments : List String) :
    List String :=
  desired_assignments.filter (fun a => !current_assignments.contains a)

/-- Embedding of `update_user_assignments(user, new_assignments, ..., context)`.
`current_assignment_ids` stands for `[a.id for a in user.assignments]`.  The
`return response` of the source sits inside the `if context.execute:` block,
so with `execute = False` the function falls off the end and returns `None`
(modelled as `none`).  The provider calls inside the execute branch log and
`continue` on error and never alter the returned list, so they are not
traced here. -/
def update_user_assignments (user : OktaUser)
    (current_assignment_ids new_assignments : List String) (execute : Bool) :
    Option (List (ProposedChange AssignmentSummary)) :=
  let current_assignments := current_assignment_ids
  let desired_assignments := new_assignments
  let assignments_to_remove :=
    ua_assignments_to_remove current_assignments desired_assignments
  let assignments_to_add :=
    ua_assignments_to_add current_assignments desired_assignments
  let response : List (ProposedChange AssignmentSummary) :=
    (if assignments_to_remove.isEmpty then []
     else [{ change_type := .detach
             resource_id := some user.user_id
             resource_type := some user.resource_type
             «attribute» := some "assignments"
             change_summary := some (.assignments_to_remove assignments_to_remove) }])
    ++ (if assignments_to_add.isEmpty then []
     else [{ change_type := .attach
             resource_id := some user.user_id
             resource_type := some user.resource_type
             «attribute» := some "assignments"
             change_summary := some (.assignments_to_add assignments_to_add) }])
  if execute then some response else none

/-! ## Auxiliary instances and lemmas -/

deriving instance DecidableEq for Except

/-- Predicate: is this tag write an `untag_policy` call? -/
def tag_write_is_untag : TagWrite → Bool
  | .untag_policy _ => true
  | .tag_policy _ => false

/-! ## Claim theorems -/

/-- C1 — the claim reads: for every resource whose `deleted` attribute is a
plain boolean equal to true, `apply_to_account` returns false unconditionally.
The code does the opposite: `if not resource.deleted: return False` makes a
`deleted = True` resource fall through to `evaluate_on_account` (here: true,
via the `"*"` wildcard), while a `deleted = False` resource is the one
rejected unconditionally.  This theorem evaluates the code at such a failing
input, exhibiting both halves of the inverted polarity. -/
theorem apply_to_account_inverts_deleted_gate :
    apply_to_account ⟨["*"], [], [], [], some true⟩ ⟨"123", none, none⟩ = .ok true
    ∧ apply_to_account ⟨["*"], [], [], [], some false⟩ ⟨"123", none, none⟩ = .ok false := by
  constructor <;> decide

/-- C2 — the claim reads: a node whose `expires_at` lies strictly before the
current time gets its `deleted` flag set to **true**, with no recursion into
its children.  The code instead executes `resource.deleted = False` (while
logging "marking for deletion").  Evaluating the sweep at such a node (time
10, `expires_at` 5, an expired child underneath) shows `deleted` becomes
`some false`, not `some true`; the children are indeed left untouched. -/
theorem remove_expired_resources_sets_deleted_false :
    remove_expired_resources 10
        (.res ⟨"aws:iam:role", "r", true, some 5, some true⟩
          [.single (.res ⟨"aws:iam:role:tag", "c", true, some 5, some true⟩ [])])
      = .res ⟨"aws:iam:role", "r", true, some 5, some false⟩
          [.single (.res ⟨"aws:iam:role:tag", "c", true, some 5, some true⟩ [])] := rfl

mutual
/-- Idempotence of the sweep on one value (mutual with the field/list forms). -/
theorem remove_expired_idem (now : Nat) :
    (t : RNode) → remove_expired_resources now (remove_expired_resources now t)
      = remove_expired_resources now t
  | .scalar => rfl
  | .res info fields => by
    by_cases h1 : info.deleted = some false
    · simp [remove_expired_resources, h1]
    · by_cases h2 : info.has_expires_at
      · match he : info.expires_at with
        | some e =>
          by_cases h3 : e < now
          · simp [remove_expired_resources, h1, h2, he, h3, mark_expired]
          · simp [remove_expired_resources, h1, h2, he, h3,
              rer_fields_idem now fields]
        | none =>
          simp [remove_expired_resources, h1, h2, he, rer_fields_idem now fields]
      · simp [remove_expired_resources, h1, h2]

/-- Idempotence over field lists. -/
theorem rer_fields_idem (now : Nat) :
    (fs : List RField) → rer_fields now (rer_fields now fs) = rer_fields now fs
  | [] => rfl
  | f :: fs => by
    simp [rer_fields, rer_field_idem now f, rer_fields_idem now fs]

/-- Idempotence over one field. -/
theorem rer_field_idem (now : Nat) :
    (f : RField) → rer_field now (rer_field now f) = rer_field now f
  | .single v => by simp [rer_field, remove_expired_idem now v]
  | .many vs => by simp [rer_field, rer_list_idem now vs]

/-- Idempotence over list-valued fields. -/
theorem rer_list_idem (now : Nat) :
    (vs : List RNode) → rer_list now (rer_list now vs) = rer_list now vs
  | [] => rfl
  | v :: vs => by
    simp [rer_list, remove_expired_idem now v, rer_list_idem now vs]
end

/-- C8 — running the expiration sweep twice in succession with the same
current time leaves the tree (in particular every node's `deleted` flag)
exactly as it was after the first run. -/
theorem remove_expired_resources_idempotent (now : Nat) (t : RNode) :
    remove_expired_resources now (remove_expired_resources now t)
      = remove_expired_resources now t :=
  remove_expired_idem now t

/-- C9 — `update_user_assignments` only returns its `ProposedChange` list
when `context.execute` is true (its `return response` sits inside the
`if context.execute:` block); with `execute = false` it returns `None`, even
though drift may have been detected, while with `execute = true` it returns
a list. -/
theorem update_user_assignments_none_without_execute
    (u : OktaUser) (cur des : List String) :
    update_user_assignments u cur des false = none
    ∧ ∃ l, update_user_assignments u cur des true = some l := by
  constructor
  · simp [update_user_assignments]
  · exact ⟨_, rfl⟩

/-- C10 — `maybe_delete_user`: with an existing user and `delete = true` it
produces exactly one DELETE `ProposedChange`; in apply mode it then issues
`deactivate_or_delete_user` exactly twice in sequence, raising (and stopping)
if either response carries an error; with no user or `delete = false` it
returns an empty list and issues no call. -/
theorem maybe_delete_user_behaviour (u : OktaUser) :
    (maybe_delete_user true (some u) true false false
      = (.ok [⟨.delete, some u.user_id, some u.resource_type, some "user",
               none, none, some ⟨u.username⟩⟩],
         [.deactivate_or_delete_user u.user_id,
          .deactivate_or_delete_user u.user_id]))
    ∧ (∀ e2, maybe_delete_user true (some u) true true e2
      = (.error "Error deleting user", [.deactivate_or_delete_user u.user_id]))
    ∧ (maybe_delete_user true (some u) true false true
      = (.error "Error deleting user",
         [.deactivate_or_delete_user u.user_id,
          .deactivate_or_delete_user u.user_id]))
    ∧ (∀ e1 e2, maybe_delete_user true (some u) false e1 e2
      = (.ok [⟨.delete, some u.user_id, some u.resource_type, some "user",
               none, none, some ⟨u.username⟩⟩], []))
    ∧ (∀ d ex e1 e2, maybe_delete_user d none ex e1 e2 = (.ok [], []))
    ∧ (∀ ex e1 e2, maybe_delete_user false (some u) ex e1 e2 = (.ok [], [])) := by
  refine ⟨rfl, fun e2 => rfl, rfl, fun e1 e2 => rfl, fun d ex e1 e2 => rfl,
    fun ex e1 e2 => rfl⟩

/-- C5, counterexample — the claim reads: with `execute = true` and
`import_only = true`, no mutating provider call at all is issued (no
`untag_policy`, `tag_policy`, `delete_policy_version`,
`create_policy_version`).  But `tag_policy` is gated by `context.execute`,
not by `iambic_import_only`: one template tag absent from AWS still triggers
a `tag_policy` call in import-only apply mode. -/
theorem import_only_tag_policy_counterexample :
    (apply_managed_policy_tags [⟨"Team", "noq"⟩] [] true true).1 ≠ []
    ∧ (apply_managed_policy_tags [⟨"Team", "noq"⟩] [] true true).2
      = [.tag_policy [⟨"Team", "noq"⟩]] := by
  constructor <;> decide

/-- C5, amended — with `execute = true` and `import_only = true` the
`ProposedChange` records are still produced (they do not depend on either
flag), and no `untag_policy`, `delete_policy_version` or
`create_policy_version` call is issued; `tag_policy`, however, is gated on
`execute` alone and is still issued exactly when there are template tags to
apply. -/
theorem import_only_gating_amended (vs : List PolicyVersion)
    (t e : JsonVal) (io ex : Bool) (tt et : List AwsTag) :
    (update_managed_policy vs t e true).2 = []
    ∧ (update_managed_policy vs t e io).1 = (update_managed_policy vs t e true).1
    ∧ (apply_managed_policy_tags tt et true ex).2.all
        (fun w => !tag_write_is_untag w) = true
    ∧ (apply_managed_policy_tags tt et io ex).1
      = (apply_managed_policy_tags tt et true true).1
    ∧ (apply_managed_policy_tags tt et true ex).2
      = (if (mp_tags_to_apply tt et).isEmpty ∨ ex = false then []
         else [.tag_policy (mp_tags_to_apply tt et)]) := by
  refine ⟨?_, ?_, ?_, ?_, ?_⟩
  · unfold update_managed_policy
    split
    · rfl
    · cases vs.length.decEq 5 <;> simp_all
  · unfold update_managed_policy
    split
    · rfl
    · cases io
      · simp
        split <;> rfl
      · rfl
  · unfold apply_managed_policy_tags
    by_cases ha : (mp_tags_to_apply tt et).isEmpty <;>
      by_cases hr : (mp_tags_to_remove tt et).isEmpty <;>
        cases ex <;> simp_all [List.all_append, tag_write_is_untag]
  · unfold apply_managed_policy_tags
    simp
  · unfold apply_managed_policy_tags
    by_cases ha : (mp_tags_to_apply tt et).isEmpty <;>
      by_cases hr : (mp_tags_to_remove tt et).isEmpty <;>
        cases ex <;> simp_all

/-- C4, counterexample — the claim reads: if desired-minus-existing is
non-empty, exactly one ATTACH `ProposedChange` is produced listing the added
keys/values.  For existing = ∅ and desired = two tags,
`apply_managed_policy_tags` produces one ATTACH record *per* tag — two, not
one. -/
theorem set_diff_single_attach_counterexample :
    ¬ ((apply_managed_policy_tags [⟨"a", "1"⟩, ⟨"b", "2"⟩] [] false false).1.countP
        (fun pc => decide (pc.change_type = ChangeType.attach)) = 1) := by
  decide

/-- C4, amended — for app assignments (in apply mode, where the list is
returned) the claim holds: one DETACH listing the removed ids iff some
current id is not desired, one ATTACH listing the added ids iff some desired
id is not current, nothing when the id sets agree.  For managed-policy tags
the code instead: emits one DETACH whose summary lists the keys whose
desired value is missing **or empty** (a falsy-value check, not a key-set
difference); emits one ATTACH per template tag whose value differs from the
existing value (not a single ATTACH listing all additions); and emits
nothing exactly when both of those collections are empty. -/
theorem set_diff_changes_amended (u : OktaUser) (cur des : List String)
    (template existing : List AwsTag) :
    (∃ resp, update_user_assignments u cur des true = some resp
      ∧ resp.countP (fun pc => decide (pc.change_type = ChangeType.detach))
          = (if ∃ a ∈ cur, a ∉ des then 1 else 0)
      ∧ resp.countP (fun pc => decide (pc.change_type = ChangeType.attach))
          = (if ∃ a ∈ des, a ∉ cur then 1 else 0)
      ∧ (∀ pc ∈ resp, pc.change_type = ChangeType.detach →
          pc.change_summary
            = some (.assignments_to_remove (ua_assignments_to_remove cur des)))
      ∧ (∀ pc ∈ resp, pc.change_type = ChangeType.attach →
          pc.change_summary
            = some (.assignments_to_add (ua_assignments_to_add cur des)))
      ∧ ((∀ a, a ∈ cur ↔ a ∈ des) → resp = []))
    ∧ ((apply_managed_policy_tags template existing false false).1.countP
          (fun pc => decide (pc.change_type = ChangeType.detach))
        = (if ∃ tg ∈ existing, py_falsy_opt_str (tag_map_get template tg.key) = true
           then 1 else 0)
      ∧ (apply_managed_policy_tags template existing false false).1.countP
          (fun pc => decide (pc.change_type = ChangeType.attach))
        = (mp_tags_to_apply template existing).length
      ∧ (∀ pc ∈ (apply_managed_policy_tags template existing false false).1,
          pc.change_type = ChangeType.detach →
          pc.change_summary = some (.tag_keys (mp_tags_to_remove template existing)))
      ∧ ((mp_tags_to_remove template existing = []
            ∧ mp_tags_to_apply template existing = [])
          → (apply_managed_policy_tags template existing false false).1 = [])) := by
  have hrm : (∃ a ∈ cur, a ∉ des)
      ↔ ¬ ((ua_assignments_to_remove cur des).isEmpty = true) := by
    simp [ua_assignments_to_remove, List.isEmpty_iff, List.filter_eq_nil_iff]
  have had : (∃ a ∈ des, a ∉ cur)
      ↔ ¬ ((ua_assignments_to_add cur des).isEmpty = true) := by
    simp [ua_assignments_to_add, List.isEmpty_iff, List.filter_eq_nil_iff]
  have htg : (∃ tg ∈ existing, py_falsy_opt_str (tag_map_get template tg.key) = true)
      ↔ ¬ ((mp_tags_to_remove template existing).isEmpty = true) := by
    simp [mp_tags_to_remove, List.isEmpty_iff, List.filter_eq_nil_iff]
  constructor
  · refine ⟨_, rfl, ?_, ?_, ?_, ?_, ?_⟩
    · by_cases hr : (ua_assignments_to_remove cur des).isEmpty <;>
        by_cases ha : (ua_assignments_to_add cur des).isEmpty <;>
          simp [update_user_assignments, hr, ha, hrm,
            List.countP_append, List.countP_cons, List.countP_nil]
    · by_cases hr : (ua_assignments_to_remove cur des).isEmpty <;>
        by_cases ha : (ua_assignments_to_add cur des).isEmpty <;>
          simp [update_user_assignments, hr, ha, had,
            List.countP_append, List.countP_cons, List.countP_nil]
    · by_cases hr : (ua_assignments_to_remove cur des).isEmpty <;>
        by_cases ha : (ua_assignments_to_add cur des).isEmpty <;>
          simp [update_user_assignments, hr, ha]
    · by_cases hr : (ua_assignments_to_remove cur des).isEmpty <;>
        by_cases ha : (ua_assignments_to_add cur des).isEmpty <;>
          simp [update_user_assignments, hr, ha]
    · intro hiff
      have h1 : ua_assignments_to_remove cur des = [] := by
        simp [ua_assignments_to_remove, List.filter_eq_nil_iff]
        intro a hac
        exact (hiff a).mp hac
      have h2 : ua_assignments_to_add cur des = [] := by
        simp [ua_assignments_to_add, List.filter_eq_nil_iff]
        intro a had2
        exact (hiff a).mpr had2
      simp [update_user_assignments, h1, h2]
  · refine ⟨?_, ?_, ?_, ?_⟩
    · by_cases hr : (mp_tags_to_remove template existing).isEmpty <;>
        simp [apply_managed_policy_tags, hr, htg,
          List.countP_append, List.countP_cons, List.countP_nil,
          List.countP_map, Function.comp]
    · by_cases hr : (mp_tags_to_remove template existing).isEmpty <;>
        simp [apply_managed_policy_tags, hr,
          List.countP_append, List.countP_cons, List.countP_nil,
          List.countP_map, Function.comp]
    · by_cases hr : (mp_tags_to_remove template existing).isEmpty <;>
        simp [apply_managed_policy_tags, hr]
    · intro ⟨h1, h2⟩
      simp [apply_managed_policy_tags, h1, h2]

/-! ## Lemmas for the scope-resolver claims -/

/-- Binding an `Except.ok` reduces to applying the continuation. -/
theorem except_ok_bind {ε α β : Type} (a : α) (f : α → Except ε β) :
    (Except.ok a : Except ε α) >>= f = f a := rfl

/-- Binding an `Except.error` propagates the error. -/
theorem except_error_bind {ε α β : Type} (e : ε) (f : α → Except ε β) :
    (Except.error e : Except ε α) >>= f = Except.error e := rfl

/-- Lower-casing fixes a decimal digit. -/
theorem py_lower_char_digit (c : Char) (h : c.isDigit = true) :
    py_lower_char c = c := by
  unfold py_lower_char
  rw [if_neg]
  rintro ⟨hA, _⟩
  simp [Char.isDigit] at h
  have : ('A' : Char) ≤ '9' := le_trans hA h.2
  exact absurd this (by decide)

/-- Lower-casing fixes a digits-only string. -/
theorem py_lower_digits (s : String) (h : s.data.all Char.isDigit = true) :
    py_lower s = s := by
  unfold py_lower
  cases s with
  | mk data =>
    congr 1
    simp only [List.all_eq_true] at h
    induction data with
    | nil => rfl
    | cons c cs ih =>
      simp only [List.map_cons, List.cons.injEq]
      exact ⟨py_lower_char_digit c (h c (by simp)),
        ih fun x hx => h x (by simp [hx])⟩

/-- Reflexivity of the boolean prefix test. -/
theorem isPrefixOf_self {α : Type} [BEq α] [LawfulBEq α] (l : List α) :
    l.isPrefixOf l = true := by
  induction l with
  | nil => rfl
  | cons a as ih => simp [List.isPrefixOf, ih]

/-- C3, counterexample — the claim reads: with exactly one variant carrying
the literal target account id and another carrying `"*"`, `get_closest_value`
returns the literal variant *without failing* regardless of variant order.
With the literal variant first, the recorded specificity is already positive
when the `"*"` pattern is reached, so the `elif` branch evaluates
`re.match("*", ...)` — an invalid regular expression — and the call raises
`re.error` instead of returning. -/
theorem closest_value_literal_vs_wildcard_counterexample :
    get_closest_value [⟨["123456789012"], (0 : Nat)⟩, ⟨["*"], 1⟩]
      ⟨"123456789012", none, none⟩ = .error () := by
  decide

/-- C3, amended — for a target with no account name and a digits-only
account id of length at least 2, and the two variants `{"*"}` and
`{account_id}`: when the wildcard variant comes first, `get_closest_value`
returns the literal variant (the literal's specificity, its length, beats
the wildcard's 1); when the literal variant comes first, the function
raises `re.error` on the subsequent `"*"` pattern instead of returning. -/
theorem closest_value_literal_vs_wildcard_amended {α : Type} (x y : α)
    (aid : String) (hlen : 2 ≤ aid.length)
    (hdig : aid.data.all Char.isDigit = true) :
    get_closest_value [⟨["*"], x⟩, ⟨[aid], y⟩] ⟨aid, none, none⟩
      = .ok (some ⟨[aid], y⟩)
    ∧ get_closest_value [⟨[aid], y⟩, ⟨["*"], x⟩] ⟨aid, none, none⟩
      = .error () := by
  have hstar : ¬ (aid = "*") := by
    intro h
    rw [h] at hlen
    exact absurd hlen (by decide)
  have hlow : py_lower aid = aid := py_lower_digits aid hdig
  have hpre : aid.data.isPrefixOf aid.data = true := isPrefixOf_self aid.data
  have hlen1 : 1 < aid.length := by omega
  have hlow_star : py_lower "*" = "*" := by decide
  have hlen0 : 0 < aid.length := by omega
  have hlenne : ¬ (aid.length = 0) := by omega
  constructor
  · simp [get_closest_value, gcv_scan_values, gcv_scan_patterns, gcv_scan_ids,
      candidate_ids, truthy_str, re_match, List.insertionSort, List.orderedInsert,
      hstar, hlow, hpre, hlen1, except_ok_bind]
  · simp [get_closest_value, gcv_scan_values, gcv_scan_patterns, gcv_scan_ids,
      candidate_ids, truthy_str, re_match, List.insertionSort, List.orderedInsert,
      hstar, hlow, hpre, hlen1, hlen0, hlenne, hlow_star, except_ok_bind,
      except_error_bind]

/-- C3, witness — the amended theorem applied at account id `"12"`. -/
theorem closest_value_literal_vs_wildcard_witness :
    (2 ≤ ("12" : String).length ∧ ("12" : String).data.all Char.isDigit = true)
    ∧ (get_closest_value [⟨["*"], (7 : Nat)⟩, ⟨["12"], 9⟩] ⟨"12", none, none⟩
        = .ok (some ⟨["12"], 9⟩)
      ∧ get_closest_value [⟨["12"], (9 : Nat)⟩, ⟨["*"], 7⟩] ⟨"12", none, none⟩
        = .error ()) :=
  ⟨⟨by decide, by decide⟩,
    closest_value_literal_vs_wildcard_amended 7 9 "12" (by decide) (by decide)⟩

/-! ## Lemmas for the lifecycle-driver claim -/

/-- The `(method, endpoint-suffix)` pair the code builds for each table
operation. -/
def op_path : LifecycleOp → String × String
  | .unsuspend => ("POST", "/lifecycle/unsuspend")
  | .suspend => ("POST", "/lifecycle/suspend")
  | .deactivate => ("POST", "/lifecycle/deactivate")
  | .activate => ("POST", "/lifecycle/activate")
  | .reactivate => ("POST", "/lifecycle/reactivate")
  | .unlock => ("POST", "/lifecycle/unlock")
  | .reset_password => ("POST", "/lifecycle/reset_password")
  | .expire_password => ("POST", "/lifecycle/expire_password")
  | .delete => ("DELETE", "")

/-- The code's `if`/`elif` dispatch agrees with the §4.5 transition table on
every pair of distinct lifecycle states: a listed pair selects exactly the
request of the listed operation; an unlisted pair selects the
invalid-transition error. -/
theorem select_status_path_spec :
    ∀ cur new : UserStatus, cur ≠ new →
      select_status_path (status_str cur) (status_str new)
        = (match spec_transition_table cur new with
           | some op => .ok (op_path op)
           | none => .error ("Error updating user status. Invalid transition from "
               ++ status_str cur ++ " to " ++ status_str new)) := by
  decide

/-- Distinct lifecycle states have distinct status strings. -/
theorem status_str_injective :
    ∀ cur new : UserStatus, cur ≠ new → ¬ (status_str cur = status_str new) := by
  decide

/-- Assembling the endpoint from `op_path` gives `op_request`. -/
theorem op_request_from_path (uid : String) (op : LifecycleOp) :
    (⟨(op_path op).1, "/api/v1/users/" ++ uid ++ (op_path op).2⟩ : OktaRequest)
      = op_request uid op := by
  cases op <;> simp [op_path, op_request, String.append_empty]

/-- C6 — in apply mode, for every pair of distinct user statuses: if the
pair is listed in the §4.5 transition table, `update_user_status` issues
exactly one provider request, the one realising the listed operation; if
the pair is not listed, it raises the invalid-transition error and issues
no request at all. -/
theorem update_user_status_matches_table (cur new : UserStatus)
    (uid uname rt : String) (h : cur ≠ new) :
    (∀ op, spec_transition_table cur new = some op →
      update_user_status (some ⟨uid, uname, status_str cur, rt⟩) (status_str new)
          true false false
        = (.ok [⟨.update, some uid, some rt, some "status", none, none,
                 some ⟨status_str cur, status_str new⟩⟩],
           [op_request uid op]))
    ∧ (spec_transition_table cur new = none →
      update_user_status (some ⟨uid, uname, status_str cur, rt⟩) (status_str new)
          true false false
        = (.error ("Error updating user status. Invalid transition from "
             ++ status_str cur ++ " to " ++ status_str new), [])) := by
  have hne := status_str_injective cur new h
  have hdis := select_status_path_spec cur new h
  constructor
  · intro op hop
    rw [hop] at hdis
    simp only [update_user_status, hne, if_neg, hdis, Bool.not_true]
    rw [← op_request_from_path uid op]
    simp
  · intro hop
    rw [hop] at hdis
    simp only [update_user_status, hne, if_neg, hdis, Bool.not_true]
    simp

/-- C6, witness — the table theorem applied at the `suspended → active`
transition: exactly one `unsuspend` lifecycle request is issued. -/
theorem update_user_status_matches_table_witness :
    update_user_status (some ⟨"u1", "alice", "suspended", "okta:user"⟩) "active"
        true false false
      = (.ok [⟨.update, some "u1", some "okta:user", some "status", none, none,
               some ⟨"suspended", "active"⟩⟩],
         [⟨"POST", "/api/v1/users/u1/lifecycle/unsuspend"⟩]) := by
  have h := update_user_status_matches_table .suspended .active "u1" "alice"
    "okta:user" (by decide)
  exact (h.1 .unsuspend rfl).trans (by decide)

/-- C7 — in apply mode with a non-empty document diff: with exactly five
existing versions, `update_managed_policy` issues exactly one
`delete_policy_version` (targeting an oldest-by-creation-date non-default
version, assuming at most one default version as AWS guarantees) strictly
before the `create_policy_version` call; with fewer versions, only the
create is issued. -/
theorem update_managed_policy_version_retention (vs : List PolicyVersion)
    (t e : JsonVal) (h5 : vs.length = 5)
    (hdef : vs.countP (fun v => v.is_default_version) ≤ 1)
    (hdrift : deep_diff_is_empty e t = false) :
    (∃ v, v ∈ vs ∧ v.is_default_version = false
      ∧ (∀ w ∈ vs, w.is_default_version = false → v.create_date ≤ w.create_date)
      ∧ get_oldest_policy_version_id vs = some v.version_id
      ∧ (update_managed_policy vs t e false).2
        = [.delete_policy_version (some v.version_id), .create_policy_version t])
    ∧ (∀ vs2 : List PolicyVersion, vs2.length < 5 →
        (update_managed_policy vs2 t e false).2 = [.create_policy_version t]) := by
  constructor
  · set r := fun a b : PolicyVersion => a.create_date ≤ b.create_date with hr
    haveI : IsTotal PolicyVersion r := ⟨fun a b => Nat.le_total _ _⟩
    haveI : IsTrans PolicyVersion r := ⟨fun a b c hab hbc => Nat.le_trans hab hbc⟩
    have hperm : (List.insertionSort r vs).Perm vs := List.perm_insertionSort r vs
    have hsorted : (List.insertionSort r vs).Sorted r := List.sorted_insertionSort r vs
    have hlen : (List.insertionSort r vs).length = 5 := by
      rw [hperm.length_eq, h5]
    obtain ⟨v0, v1, rest, hs⟩ :
        ∃ v0 v1 rest, List.insertionSort r vs = v0 :: v1 :: rest := by
      match hi : List.insertionSort r vs with
      | [] => rw [hi] at hlen; simp at hlen
      | [a] => rw [hi] at hlen; simp at hlen
      | a :: b :: l => exact ⟨a, b, l, rfl⟩
    rw [hs] at hperm hsorted
    have hmem0 : v0 ∈ vs := hperm.mem_iff.mp (by simp)
    have hmem1 : v1 ∈ vs := hperm.mem_iff.mp (by simp)
    have hgo : get_oldest_policy_version_id vs
        = (if !v0.is_default_version then some v0.version_id
           else some v1.version_id) := by
      unfold get_oldest_policy_version_id
      rw [hs]
    have htrace : (update_managed_policy vs t e false).2
        = [.delete_policy_version (get_oldest_policy_version_id vs),
           .create_policy_version t] := by
      unfold update_managed_policy
      simp [hdrift, h5]
    cases hd : v0.is_default_version with
    | false =>
      refine ⟨v0, hmem0, hd, ?_, ?_, ?_⟩
      · intro w hw _
        rcases List.mem_cons.mp (hperm.mem_iff.mpr hw) with h0 | htl
        · rw [h0]
        · exact (List.sorted_cons.mp hsorted).1 w htl
      · rw [hgo, hd]; rfl
      · rw [htrace, hgo, hd]; rfl
    | true =>
      have hcount : (v0 :: v1 :: rest).countP (fun v => v.is_default_version)
          = vs.countP (fun v => v.is_default_version) := hperm.countP_eq _
      have htail0 : (v1 :: rest).countP (fun v => v.is_default_version) = 0 := by
        rw [List.countP_cons_of_pos _ _ (by simp [hd])] at hcount
        omega
      have hnd : ∀ w ∈ v1 :: rest, w.is_default_version = false := by
        intro w hw
        have := (List.countP_eq_zero.mp htail0) w hw
        simpa using this
      refine ⟨v1, hmem1, hnd v1 (by simp), ?_, ?_, ?_⟩
      · intro w hw hwnd
        rcases List.mem_cons.mp (hperm.mem_iff.mpr hw) with h0 | htl
        · rw [h0] at hwnd
          rw [hd] at hwnd
          cases hwnd
        · rcases List.mem_cons.mp htl with h1 | htl2
          · rw [h1]
          · exact (List.sorted_cons.mp (List.sorted_cons.mp hsorted).2).1 w htl2
      · rw [hgo, hd]; rfl
      · rw [htrace, hgo, hd]; rfl
  · intro vs2 hlt
    unfold update_managed_policy
    have hne : ¬ (vs2.length = 5) := by omega
    simp [hdrift, hne]

/-- Concrete five-version list for the retention witness (the oldest version
is the default, so the second-oldest must be evicted). -/
def retention_witness_versions : List PolicyVersion :=
  [⟨"v5", 50, false⟩, ⟨"v1", 10, true⟩, ⟨"v2", 20, false⟩,
   ⟨"v3", 30, false⟩, ⟨"v4", 40, false⟩]

/-- C7, witness — the retention theorem applied to a concrete five-version
policy whose default version is the oldest. -/
theorem update_managed_policy_version_retention_witness :
    retention_witness_versions.length = 5
    ∧ retention_witness_versions.countP (fun v => v.is_default_version) ≤ 1
    ∧ deep_diff_is_empty (.str "old") (.str "new") = false
    ∧ (∃ v, v ∈ retention_witness_versions ∧ v.is_default_version = false
        ∧ (∀ w ∈ retention_witness_versions, w.is_default_version = false →
            v.create_date ≤ w.create_date)
        ∧ get_oldest_policy_version_id retention_witness_versions
          = some v.version_id
        ∧ (update_managed_policy retention_witness_versions (.str "new")
            (.str "old") false).2
          = [.delete_policy_version (some v.version_id),
             .create_policy_version (.str "new")]) :=
  ⟨by decide, by decide, by decide,
    (update_managed_policy_version_retention retention_witness_versions
      (.str "new") (.str "old") (by decide) (by decide) (by decide)).1⟩

/-- C4, witness — the amended theorem applied at equal assignment sets: no
`ProposedChange` is produced. -/
theorem set_diff_changes_amended_witness :
    update_user_assignments ⟨"u0", "bob", "active", "okta:user"⟩ ["app1"]
      ["app1"] true = some [] := by
  obtain ⟨⟨resp, hresp, _, _, _, _, hnil⟩, _⟩ :=
    set_diff_changes_amended ⟨"u0", "bob", "active", "okta:user"⟩ ["app1"]
      ["app1"] [] []
  rw [hnil (fun a => Iff.rfl)] at hresp
  exact hresp
